import Mathlib

set_option maxHeartbeats 1000000

namespace Transcribe

/-! Shallow embedding of `src/transcribe.py`, a CLI wrapper around the
Whisper speech model.  Strings are Lean `String`s (Python `str` works on
characters, as does `String.toList`); `pathlib.Path` values are modelled by
`PyPath`; the process environment (interpreter version, home directory,
working directory, filesystem, the opaque whisper library, the PATH lookup
for ffmpeg) is an explicit `Env` record, and `main` returns the observable
outcome of a run. -/

/-- ASCII whitespace stripped by Python `str.strip()` (the Unicode
extension of Python's whitespace set is outside the modelled alphabet). -/
def isPySpace (c : Char) : Bool :=
  c = ' ' || c = '\t' || c = '\n' || c = '\x0b' || c = '\x0c' || c = '\r'

/-- Model of Python `str.strip()`: drop leading and trailing whitespace. -/
def pyStrip (s : String) : String :=
  ⟨((s.toList.dropWhile isPySpace).reverse.dropWhile isPySpace).reverse⟩

/-- Model of Python slicing `s[:n]` (character based). -/
def pySlice (s : String) (n : Nat) : String := ⟨s.toList.take n⟩

/-- Model of Python slicing `s[n:]` (character based). -/
def pyDrop (s : String) (n : Nat) : String := ⟨s.toList.drop n⟩

/-- Model of Python `str.startswith`. -/
def strStarts (s p : String) : Bool := List.isPrefixOf p.toList s.toList

/-- Auxiliary: is `pat` a contiguous sublist of `l`? -/
def infixOfAux (pat : List Char) : List Char → Bool
  | [] => pat.isEmpty
  | c :: t => List.isPrefixOf pat (c :: t) || infixOfAux pat t

/-- Model of Python substring containment `p in s`. -/
def strContains (s p : String) : Bool := infixOfAux p.toList s.toList

/-- Model of Python single-character containment `c in s`. -/
def strHasChar (s : String) (c : Char) : Bool := s.toList.contains c

/-- A `pathlib` path: an absolute/relative flag plus the non-root, already
normalised components (pathlib drops empty components and `.` when parsing a
string). -/
structure PyPath where
  absolute : Bool
  parts : List String
deriving DecidableEq, Repr

/-- Split a character list at every occurrence of `sep` (the semantics of
Python's `str.split` with a one-character separator, and of
`String.splitOn` with a one-character pattern). -/
def splitOnCharAux (sep : Char) : List Char → List Char → List (List Char)
  | [], acc => [acc.reverse]
  | c :: t, acc =>
      if c = sep then acc.reverse :: splitOnCharAux sep t []
      else splitOnCharAux sep t (c :: acc)

def splitOnChar (sep : Char) (s : String) : List String :=
  (splitOnCharAux sep s.toList []).map (fun l => (⟨l⟩ : String))

/-- Model of `pathlib.Path(s)`: split on the separator, record whether the
path is absolute, drop empty and `.` components. -/
def pathOfString (s : String) : PyPath :=
  { absolute := strStarts s "/",
    parts := (splitOnChar '/' s).filter (fun x => x ≠ "" ∧ x ≠ ".") }

/-- Model of `str(path)`. -/
def pathToString (p : PyPath) : String :=
  if p.absolute then "/" ++ String.intercalate "/" p.parts
  else if p.parts = [] then "." else String.intercalate "/" p.parts

/-- Model of `Path.expanduser()`: a leading `~` component of a relative
path is replaced by the home directory.  (`~user` lookups need the system
user database and are outside the model.) -/
def pyExpanduser (home : List String) (p : PyPath) : PyPath :=
  match p.absolute, p.parts with
  | false, "~" :: rest => { absolute := true, parts := home ++ rest }
  | _, _ => p

/-- `..` elimination performed by `Path.resolve()` (no symlinks in the
model: resolution is purely lexical-with-popping, as for non-symlinked
paths). -/
def normParts (l : List String) : List String :=
  l.foldl (fun acc x => if x = ".." then acc.dropLast else acc ++ [x]) []

/-- Model of `Path.resolve()`: anchor a relative path at the current
working directory and eliminate `..` components; the result is absolute. -/
def pyResolve (cwd : List String) (p : PyPath) : PyPath :=
  { absolute := true,
    parts := normParts (if p.absolute then p.parts else cwd ++ p.parts) }

/-- The composition `Path(s).expanduser().resolve()` used by the script for
both the input path and an explicitly provided output path. -/
def expandUserResolve (home cwd : List String) (s : String) : PyPath :=
  pyResolve cwd (pyExpanduser home (pathOfString s))

/-- Model of `Path.name`: the final component, `""` when there is none. -/
def pyName (p : PyPath) : String := (p.parts.getLast?).getD ""

/-- Model of `Path.stem` (CPython: the name up to the last dot, provided
that dot is neither the first nor past-the-end character). -/
def pyStem (p : PyPath) : String :=
  match ((pyName p).toList.reverse.findIdx? (fun c => c == '.')).map
      (fun j => (pyName p).toList.length - 1 - j) with
  | some i =>
      if 0 < i ∧ i + 1 < (pyName p).toList.length then
        ⟨(pyName p).toList.take i⟩
      else ⟨(pyName p).toList⟩
  | none => ⟨(pyName p).toList⟩

/-- Model of `Path.with_name(n)` (CPython raises `ValueError` when the path
has no final component, or when the new name is empty, contains the
separator, or is `.`). -/
def withName (p : PyPath) (n : String) : Except String PyPath :=
  if pyName p = "" then
    .error "ValueError: path has an empty name"
  else if n = "" ∨ strHasChar n '/' ∨ n = "." then
    .error "ValueError: invalid name"
  else
    .ok { absolute := p.absolute, parts := p.parts.dropLast ++ [n] }

/-- `resolve_output_path` from `src/transcribe.py`: an explicitly provided
(truthy, i.e. non-empty) output string is expanded and resolved; otherwise
a sibling of the input named `<stem>_<task>.txt` is derived.  `home` and
`cwd` are the process state consulted by `expanduser`/`resolve`. -/
def resolve_output_path (home cwd : List String) (input_path : PyPath)
    (provided : Option String) (task : String) : Except String PyPath :=
  match provided with
  | some s =>
      if s ≠ "" then .ok (expandUserResolve home cwd s)
      else withName input_path (pyStem input_path ++ "_" ++ task ++ ".txt")
  | none => withName input_path (pyStem input_path ++ "_" ++ task ++ ".txt")

/-! ## The argument parser

`parse_args` builds an `argparse` parser with one required positional
(`input`), options `-m` alias `--model` (default `"small"`), `-o` alias
`--output`, `--language`, and `--task` with `choices=["transcribe", "translate"]`
(default `"transcribe"`).  The model below reproduces argparse's behaviour
on this parser: options take the next token (or an `=`-joined value), a
choice is validated the moment the option is consumed, the required
positional is checked at the end, leftover tokens are reported as
unrecognized. -/

structure Args where
  input : String
  model : String
  output : Option String
  language : Option String
  task : String
deriving DecidableEq, Repr

/-- Which option is waiting for its value during the scan. -/
inductive Pending where
  | model | output | language | task
deriving DecidableEq, Repr

def destName : Pending → String
  | .model => "-m/--model"
  | .output => "-o/--output"
  | .language => "--language"
  | .task => "--task"

structure ScanSt where
  positionals : List String
  unknowns : List String
  model : String
  output : Option String
  language : Option String
  task : String
  pending : Option Pending
deriving DecidableEq, Repr

def initScanSt : ScanSt :=
  { positionals := [], unknowns := [], model := "small", output := none,
    language := none, task := "transcribe", pending := none }

/-- Outcome of argument parsing: a parsed namespace, a usage error
(argparse exits with status 2), or the auto-generated help (exit 0). -/
inductive PRes (α : Type) where
  | ok (a : α)
  | err (msg : String)
  | help
deriving DecidableEq, Repr

def expectedOneArgMsg (k : Pending) : String :=
  s!"argument {destName k}: expected one argument"

def invalidChoiceMsg (v : String) : String :=
  "argument --task: invalid choice: \x27" ++ v ++
    "\x27 (choose from \x27transcribe\x27, \x27translate\x27)"

/-- Store the value `v` for the option `k`, validating `--task` choices. -/
def assignPending (st : ScanSt) (k : Pending) (v : String) : PRes ScanSt :=
  match k with
  | .model => .ok { st with model := v, pending := none }
  | .output => .ok { st with output := some v, pending := none }
  | .language => .ok { st with language := some v, pending := none }
  | .task =>
      if v = "transcribe" ∨ v = "translate" then
        .ok { st with task := v, pending := none }
      else .err (invalidChoiceMsg v)

/-- One token of the argparse scan. -/
def scanStep (st : ScanSt) (t : String) : PRes ScanSt :=
  match st.pending with
  | some k =>
      if strStarts t "-" ∧ t ≠ "-" then .err (expectedOneArgMsg k)
      else assignPending st k t
  | none =>
      if t = "-h" ∨ t = "--help" then .help
      else if t = "-m" ∨ t = "--model" then
        .ok { st with pending := some .model }
      else if t = "-o" ∨ t = "--output" then
        .ok { st with pending := some .output }
      else if t = "--language" then
        .ok { st with pending := some .language }
      else if t = "--task" then
        .ok { st with pending := some .task }
      else if strStarts t "--model=" then
        .ok { st with model := pyDrop t 8 }
      else if strStarts t "--output=" then
        .ok { st with output := some (pyDrop t 9) }
      else if strStarts t "--language=" then
        .ok { st with language := some (pyDrop t 11) }
      else if strStarts t "--task=" then
        assignPending st .task (pyDrop t 7)
      else if strStarts t "-" ∧ t ≠ "-" then
        .ok { st with unknowns := st.unknowns ++ [t] }
      else
        .ok { st with positionals := st.positionals ++ [t] }

/-- The token scan of the argparse model. -/
def scanArgs : List String → ScanSt → PRes ScanSt
  | [], st =>
      match st.pending with
      | some k => .err (expectedOneArgMsg k)
      | none => .ok st
  | t :: rest, st =>
      match scanStep st t with
      | .ok st2 => scanArgs rest st2
      | .err e => .err e
      | .help => .help

def requiredInputMsg : String := "the following arguments are required: input"

def unrecognizedMsg (xs : List String) : String :=
  let j := String.intercalate " " xs
  s!"unrecognized arguments: {j}"

/-- `parse_args` from `src/transcribe.py` (the argparse call). -/
def parse_args (argv : List String) : PRes Args :=
  match scanArgs argv initScanSt with
  | .help => .help
  | .err e => .err e
  | .ok st =>
      match st.positionals with
      | [] => .err requiredInputMsg
      | [i] =>
          if st.unknowns = [] then
            .ok { input := i, model := st.model, output := st.output,
                  language := st.language, task := st.task }
          else .err (unrecognizedMsg st.unknowns)
      | _ :: extra => .err (unrecognizedMsg (st.unknowns ++ extra))

/-! ## The program -/

/-- The stages of the pipeline; an event is recorded when the stage is
entered (its check or call is attempted). -/
inductive Stage where
  | envCheck      -- the Python-version guard at the top of main
  | parseArgs     -- the argparse call
  | inputCheck    -- the input-file existence check
  | loadModel     -- whisper.load_model
  | transcribe    -- model.transcribe
  | writeOutput   -- output_path.write_text
  | ffmpegCheck   -- shutil.which("ffmpeg")
deriving DecidableEq, Repr

/-- Process environment: interpreter facts, `~` and the working directory,
the filesystem (path to file content), the opaque whisper library (a
deterministic oracle: `load_model` by name, and `transcribe` as a function
of model name, input path string, task, language, the fp16 flag and the
decoded audio content), and whether ffmpeg is on PATH. -/
structure Env where
  whisperImportable : Bool
  pyVerGE312 : Bool
  home : List String
  cwd : List String
  fs : PyPath → Option String
  loadModel : String → Except String Unit
  transcribeFn : String → String → String → Option String → Bool → String →
    Except String String
  ffmpegOnPath : Bool

/-- Observable outcome of one run of the script. -/
structure RunResult where
  exitCode : Nat
  stdout : List String
  stderr : List String
  writes : List (PyPath × String × String)  -- path, content, encoding
  fs : PyPath → Option String
  trace : List Stage

def fsUpdate (f : PyPath → Option String) (p : PyPath) (v : String) :
    PyPath → Option String :=
  fun q => if q = p then some v else f q

def importErrMsg : String :=
  "❌ \x27whisper\x27 library not found. Install dependencies first with:\n   pip install -r requirements.txt\n"

def versionErrMsg : String :=
  "❌ PyTorch/Whisper wheels are not yet available for Python 3.12. Please run this tool under Python 3.8—3.11 (e.g. 3.11.8). Consider using pyenv:\n   pyenv install 3.11.8 && pyenv local 3.11.8"

def usageText : String :=
  "usage: transcribe [-h] [-m MODEL] [-o OUTPUT] [--language LANGUAGE] [--task \x7btranscribe,translate\x7d] input"

def errLine (e : String) : String := s!"transcribe: error: {e}"

def helpText : String :=
  usageText ++ "\n\nTranscribe or translate audio/video files using Whisper."

def notFoundMsg (p : PyPath) : String :=
  s!"❌ File not found: {pathToString p}"

def loadingMsg (m : String) : String :=
  s!"👉 Loading Whisper model \x27{m}\x27… This may take a while on first run."

def transcribingMsg : String := "🎧 Transcribing…"

def doneMsg (p : PyPath) : String :=
  s!"✅ Done! Transcript saved to: {pathToString p}"

def previewHeader : String := "\n--- Transcript preview (first 1,000 chars) ---"

/-- The preview expression `text[:1000] + ("…" if len(text) > 1000 else "")`. -/
def previewOf (text : String) : String :=
  pySlice text 1000 ++ (if text.length > 1000 then "…" else "")

def ffmpegWarnMsg : String :=
  "⚠️  FFmpeg executable not found in PATH. Whisper might fail to load the audio.\n    👉 Install it, e.g. \x27brew install ffmpeg\x27 (macOS) or from https://ffmpeg.org/download.html"

/-- `main` from `src/transcribe.py` (together with the module-level
`import whisper` guard that runs before it): the whole observable run as a
function of the environment and the argument vector. -/
def main (env : Env) (argv : List String) : RunResult :=
  if env.whisperImportable then
    if env.pyVerGE312 then
      ⟨1, [], [versionErrMsg], [], env.fs, [Stage.envCheck]⟩
    else
      match parse_args argv with
      | .help =>
          ⟨0, [helpText], [], [], env.fs, [Stage.envCheck, Stage.parseArgs]⟩
      | .err e =>
          ⟨2, [], [usageText, errLine e], [], env.fs,
            [Stage.envCheck, Stage.parseArgs]⟩
      | .ok args =>
          let input_path := expandUserResolve env.home env.cwd args.input
          match env.fs input_path with
          | none =>
              ⟨1, [], [notFoundMsg input_path], [], env.fs,
                [Stage.envCheck, Stage.parseArgs, Stage.inputCheck]⟩
          | some content =>
              match env.loadModel args.model with
              | .error m =>
                  ⟨1, [loadingMsg args.model], [m], [], env.fs,
                    [Stage.envCheck, Stage.parseArgs, Stage.inputCheck,
                      Stage.loadModel]⟩
              | .ok _ =>
                  match env.transcribeFn args.model (pathToString input_path)
                      args.task args.language false content with
                  | .error m =>
                      ⟨1, [loadingMsg args.model, transcribingMsg], [m], [],
                        env.fs,
                        [Stage.envCheck, Stage.parseArgs, Stage.inputCheck,
                          Stage.loadModel, Stage.transcribe]⟩
                  | .ok raw =>
                      let text := pyStrip raw
                      match resolve_output_path env.home env.cwd input_path
                          args.output args.task with
                      | .error m =>
                          ⟨1, [loadingMsg args.model, transcribingMsg], [m],
                            [], env.fs,
                            [Stage.envCheck, Stage.parseArgs, Stage.inputCheck,
                              Stage.loadModel, Stage.transcribe]⟩
                      | .ok output_path =>
                          ⟨0,
                            [loadingMsg args.model, transcribingMsg,
                              doneMsg output_path, previewHeader,
                              previewOf text],
                            if env.ffmpegOnPath then [] else [ffmpegWarnMsg],
                            [(output_path, text, "utf-8")],
                            fsUpdate env.fs output_path text,
                            [Stage.envCheck, Stage.parseArgs, Stage.inputCheck,
                              Stage.loadModel, Stage.transcribe,
                              Stage.writeOutput, Stage.ffmpegCheck]⟩
  else
    ⟨1, [], [importErrMsg], [], env.fs, []⟩

/-- The full pipeline order actually realised by the code. -/
def pipelineOrder : List Stage :=
  [Stage.envCheck, Stage.parseArgs, Stage.inputCheck, Stage.loadModel,
    Stage.transcribe, Stage.writeOutput, Stage.ffmpegCheck]

/-- The pipeline order asserted by the specification (argument parsing
before the runtime-version check), without the post-run ffmpeg check. -/
def claimedOrder : List Stage :=
  [Stage.parseArgs, Stage.envCheck, Stage.inputCheck, Stage.loadModel,
    Stage.transcribe, Stage.writeOutput]

/-- A concrete input file used by witnesses: `/a/in.mp3`. -/
def inFile : PyPath := ⟨true, ["a", "in.mp3"]⟩

/-- A concrete healthy environment used by witnesses. -/
def env0 : Env :=
  { whisperImportable := true, pyVerGE312 := false, home := ["home", "u"],
    cwd := ["w"], fs := fun p => if p = inFile then some "AUDIO" else none,
    loadModel := fun _ => .ok (),
    transcribeFn := fun _ _ _ _ _ _ => .ok "  hello world \n",
    ffmpegOnPath := true }

/-! ## Helper lemmas -/

theorem toList_append (s t : String) : (s ++ t).toList = s.toList ++ t.toList :=
  String.data_append s t

theorem mk_toList (s : String) : (⟨s.toList⟩ : String) = s := by
  cases s; rfl

theorem string_eq_iff_toList (s t : String) : s = t ↔ s.toList = t.toList := by
  constructor
  · intro h; rw [h]
  · intro h; cases s; cases t; exact congrArg String.mk h

/-! ## Claim theorems -/

/-- C6: for every transcription text, the printed preview is exactly the
first 1000 characters followed by a single truncation marker when the
text's length exceeds 1000 characters, and is exactly the full text with no
marker when the length is at most 1000 characters. -/
theorem preview_truncation (text : String) :
    (1000 < text.length →
      (previewOf text).toList = text.toList.take 1000 ++ ['…']) ∧
    (text.length ≤ 1000 → previewOf text = text) := by
  constructor
  · intro h
    have hgt : text.length > 1000 := h
    simp only [previewOf, pySlice, if_pos hgt, toList_append]
    rfl
  · intro h
    have hngt : ¬ text.length > 1000 := by omega
    simp only [previewOf, pySlice, if_neg hngt]
    have htake : text.toList.take 1000 = text.toList :=
      List.take_of_length_le h
    rw [htake, mk_toList]
    exact String.append_empty text

theorem preview_truncation_witness :
    (1000 < (String.mk (List.replicate 1001 'x')).length →
      (previewOf (String.mk (List.replicate 1001 'x'))).toList
        = (String.mk (List.replicate 1001 'x')).toList.take 1000 ++ ['…']) ∧
    ((String.mk (List.replicate 1001 'x')).length ≤ 1000 →
      previewOf (String.mk (List.replicate 1001 'x'))
        = String.mk (List.replicate 1001 'x')) :=
  preview_truncation (String.mk (List.replicate 1001 'x'))

/-- C1: for every input path and task, a provided (non-empty, hence truthy
in the source's `if provided:`) output path makes `resolve_output_path`
return exactly that path expanded (`expanduser`) and made absolute
(`resolve`), regardless of the task value and of the input path, and the
result is an absolute path. -/
theorem explicit_output_resolution (home cwd : List String)
    (input_path : PyPath) (s task : String) (h : s ≠ "") :
    resolve_output_path home cwd input_path (some s) task
        = .ok (expandUserResolve home cwd s)
      ∧ (expandUserResolve home cwd s).absolute = true := by
  refine ⟨?_, rfl⟩
  simp [resolve_output_path, h]

theorem explicit_output_resolution_witness :
    resolve_output_path ["home", "u"] ["w"] ⟨true, ["a", "in.mp3"]⟩
        (some "~/o.txt") "translate"
        = .ok (expandUserResolve ["home", "u"] ["w"] "~/o.txt")
      ∧ (expandUserResolve ["home", "u"] ["w"] "~/o.txt").absolute = true :=
  explicit_output_resolution ["home", "u"] ["w"] ⟨true, ["a", "in.mp3"]⟩
    "~/o.txt" "translate" (by decide)

/-- C10: an empty provided output string is falsy in the source's
`if provided:`, so `resolve_output_path` behaves exactly as if no output
path were provided, deriving the default sibling `<stem>_<task>.txt`
rather than building a path from the empty string. -/
theorem empty_output_treated_as_absent (home cwd : List String)
    (input_path : PyPath) (task : String) :
    resolve_output_path home cwd input_path (some "") task
        = resolve_output_path home cwd input_path none task
      ∧ resolve_output_path home cwd input_path (some "") task
        = withName input_path (pyStem input_path ++ "_" ++ task ++ ".txt") := by
  constructor <;> simp [resolve_output_path]

theorem stem_no_slash (p : PyPath) (h : strHasChar (pyName p) '/' = false) :
    strHasChar (pyStem p) '/' = false := by
  unfold pyStem
  have hmem : ¬ '/' ∈ (pyName p).toList := by
    intro hm
    simp only [strHasChar, List.contains] at h
    rw [List.elem_eq_true_of_mem hm] at h
    exact Bool.noConfusion h
  split
  · next i hi =>
      split
      · simp only [strHasChar, List.contains]
        cases he : List.elem '/' (List.take i (pyName p).toList)
        · exact he
        · exact absurd (List.mem_of_mem_take (List.mem_of_elem_eq_true he))
            hmem
      · rw [mk_toList]; exact h
  · rw [mk_toList]; exact h

theorem withName_ok (p : PyPath) (n : String) (h1 : pyName p ≠ "")
    (h2 : ¬ n = "") (h3 : ¬ strHasChar n '/' = true) (h4 : ¬ n = ".") :
    withName p n = .ok ⟨p.absolute, p.parts.dropLast ++ [n]⟩ := by
  simp [withName, h1, h2, h3, h4]

theorem underscore_toList : ("_" : String).toList = ['_'] := rfl

theorem txt_toList : (".txt" : String).toList = ['.', 't', 'x', 't'] := rfl

theorem dot_toList : ("." : String).toList = ['.'] := rfl

theorem empty_toList : ("" : String).toList = [] := rfl

/-- The derived-default branch of `resolve_output_path` succeeds and yields
the sibling path, for any task name free of the path separator. -/
theorem sibling_ok (home cwd : List String) (ip : PyPath) (task : String)
    (hname : pyName ip ≠ "") (hsl : strHasChar (pyName ip) '/' = false)
    (htask : ¬ '/' ∈ task.toList) :
    resolve_output_path home cwd ip none task
      = .ok ⟨ip.absolute,
          ip.parts.dropLast ++ [pyStem ip ++ "_" ++ task ++ ".txt"]⟩ := by
  have hstem := stem_no_slash ip hsl
  have hstemmem : ¬ '/' ∈ (pyStem ip).toList := by
    intro hm
    simp only [strHasChar, List.contains] at hstem
    rw [List.elem_eq_true_of_mem hm] at hstem
    exact Bool.noConfusion hstem
  rw [resolve_output_path, withName_ok ip _ hname ?hne ?hnsl ?hdot]
  case hne =>
    intro h
    rw [string_eq_iff_toList] at h
    simp only [toList_append, txt_toList, empty_toList,
      List.append_eq_nil] at h
    exact List.cons_ne_nil _ _ h.2
  case hnsl =>
    simp only [strHasChar, List.contains, toList_append]
    intro hc
    rcases List.mem_append.1 (List.mem_of_elem_eq_true hc) with hm | hm
    · rcases List.mem_append.1 hm with hm2 | hm2
      · rcases List.mem_append.1 hm2 with hm3 | hm3
        · exact hstemmem hm3
        · rw [underscore_toList] at hm3
          exact absurd hm3 (by decide)
      · exact htask hm2
    · rw [txt_toList] at hm
      exact absurd hm (by decide)
  case hdot =>
    intro h
    rw [string_eq_iff_toList] at h
    have hlen := congrArg List.length h
    simp only [toList_append, txt_toList, dot_toList, List.length_append,
      List.length_cons, List.length_nil] at hlen
    omega

/-- C2: for every input path (with a proper, separator-free filename, as
`with_name` requires) and every valid task value, when no output path is
provided `resolve_output_path` returns a sibling of the input: same
directory, filename `<stem>_<task>.txt`. -/
theorem default_output_resolution (home cwd : List String) (ip : PyPath)
    (task : String) (hname : pyName ip ≠ "")
    (hsl : strHasChar (pyName ip) '/' = false)
    (htask : task = "transcribe" ∨ task = "translate") :
    ∃ p, resolve_output_path home cwd ip none task = .ok p
      ∧ p.absolute = ip.absolute
      ∧ p.parts.dropLast = ip.parts.dropLast
      ∧ pyName p = pyStem ip ++ "_" ++ task ++ ".txt" := by
  have htask2 : ¬ '/' ∈ task.toList := by
    rcases htask with h | h <;> subst h <;> decide
  refine ⟨_, sibling_ok home cwd ip task hname hsl htask2, rfl, ?_, ?_⟩
  · exact List.dropLast_concat ..
  · simp [pyName, List.getLast?_concat]

theorem default_output_resolution_witness :
    ∃ p, resolve_output_path ["home", "u"] ["w"] ⟨true, ["a", "in.mp3"]⟩
          none "transcribe" = .ok p
      ∧ p.absolute = (⟨true, ["a", "in.mp3"]⟩ : PyPath).absolute
      ∧ p.parts.dropLast = (⟨true, ["a", "in.mp3"]⟩ : PyPath).parts.dropLast
      ∧ pyName p
          = pyStem ⟨true, ["a", "in.mp3"]⟩ ++ "_" ++ "transcribe" ++ ".txt" :=
  default_output_resolution ["home", "u"] ["w"] ⟨true, ["a", "in.mp3"]⟩
    "transcribe" (by decide) (by decide) (Or.inl rfl)

theorem strStarts_trans (s p q : String) (h1 : strStarts s p = true)
    (h2 : strStarts p q = true) : strStarts s q = true := by
  simp only [strStarts, List.isPrefixOf_iff_prefix] at h1 h2 ⊢
  exact h2.trans h1

/-- A token that does not start with `-` matches none of the option
syntaxes of the parser. -/
theorem plain_token_facts (i : String) (h : strStarts i "-" = false) :
    ¬ (i = "-h" ∨ i = "--help") ∧ ¬ (i = "-m" ∨ i = "--model")
      ∧ ¬ (i = "-o" ∨ i = "--output") ∧ i ≠ "--language" ∧ i ≠ "--task"
      ∧ strStarts i "--model=" = false ∧ strStarts i "--output=" = false
      ∧ strStarts i "--language=" = false ∧ strStarts i "--task=" = false := by
  have hpre : ∀ p : String, strStarts p "-" = true →
      strStarts i p = false := by
    intro p hp
    cases hc : strStarts i p
    · rfl
    · rw [strStarts_trans i p "-" hc hp] at h
      exact Bool.noConfusion h
  have heq : ∀ p : String, strStarts p "-" = true → i ≠ p := by
    intro p hp he
    subst he
    rw [hp] at h
    exact Bool.noConfusion h
  refine ⟨?_, ?_, ?_, ?_, ?_, ?_, ?_, ?_, ?_⟩
  · rintro (he | he) <;> exact heq _ (by decide) he
  · rintro (he | he) <;> exact heq _ (by decide) he
  · rintro (he | he) <;> exact heq _ (by decide) he
  · exact heq _ (by decide)
  · exact heq _ (by decide)
  · exact hpre _ (by decide)
  · exact hpre _ (by decide)
  · exact hpre _ (by decide)
  · exact hpre _ (by decide)

def taskOK (t : String) : Prop := t = "transcribe" ∨ t = "translate"

theorem assignPending_taskOK (st : ScanSt) (k : Pending) (v : String)
    (st2 : ScanSt) (h : taskOK st.task)
    (ha : assignPending st k v = .ok st2) : taskOK st2.task := by
  cases k <;> simp only [assignPending] at ha
  · cases ha; exact h
  · cases ha; exact h
  · cases ha; exact h
  · split at ha
    · cases ha
      next hv => exact hv
    · exact PRes.noConfusion ha

theorem scanStep_taskOK (st : ScanSt) (t : String) (st2 : ScanSt)
    (h : taskOK st.task) (hs : scanStep st t = .ok st2) : taskOK st2.task := by
  unfold scanStep at hs
  cases hp : st.pending <;> simp only [hp] at hs
  · repeat' split at hs
    all_goals first
      | exact PRes.noConfusion hs
      | (cases hs; exact h)
      | exact assignPending_taskOK _ _ _ _ h hs
  · split at hs
    · exact PRes.noConfusion hs
    · exact assignPending_taskOK _ _ _ _ h hs

theorem scanArgs_taskOK : ∀ (l : List String) (st st2 : ScanSt),
    taskOK st.task → scanArgs l st = .ok st2 → taskOK st2.task := by
  intro l
  induction l with
  | nil =>
      intro st st2 h hs
      simp only [scanArgs] at hs
      cases hp : st.pending <;> simp only [hp] at hs
      · cases hs; exact h
      · exact PRes.noConfusion hs
  | cons t rest ih =>
      intro st st2 h hs
      simp only [scanArgs] at hs
      cases hstep : scanStep st t <;> simp only [hstep] at hs
      · exact ih _ _ (scanStep_taskOK st t _ h hstep) hs
      · exact PRes.noConfusion hs
      · exact PRes.noConfusion hs

theorem parse_args_taskOK (argv : List String) (args : Args)
    (h : parse_args argv = .ok args) : taskOK args.task := by
  simp only [parse_args] at h
  cases hs : scanArgs argv initScanSt <;> simp only [hs] at h
  case ok st =>
    have hst : taskOK st.task :=
      scanArgs_taskOK argv initScanSt st (Or.inl rfl) hs
    rcases hpos : st.positionals with _ | ⟨hd, _ | ⟨hd2, tl2⟩⟩ <;>
      simp only [hpos] at h
    · exact PRes.noConfusion h
    · split at h
      · cases h; exact hst
      · exact PRes.noConfusion h
    · exact PRes.noConfusion h
  case err e => exact PRes.noConfusion h
  case help => exact PRes.noConfusion h

/-- When the parser rejects the arguments, `main` stops with argparse's
exit status 2 after only the version check and the parse: no filesystem
access, no model interaction, nothing written. -/
theorem main_parse_err (env : Env) (argv : List String) (e : String)
    (hw : env.whisperImportable = true) (hv : env.pyVerGE312 = false)
    (hp : parse_args argv = .err e) :
    main env argv = ⟨2, [], [usageText, errLine e], [], env.fs,
      [Stage.envCheck, Stage.parseArgs]⟩ := by
  rw [main, hw, hv, hp]
  rfl

/-- C5: a `--task` value outside {"transcribe", "translate"} can never
yield a parsed configuration; on the concrete invocation shape
`[input, "--task", value]` the parser fails with the usage error that
lists the allowed values; and whenever parsing fails the program exits
with status 2 having touched neither the filesystem nor the model. -/
theorem invalid_task_rejected :
    (∀ argv args, parse_args argv = .ok args →
      args.task = "transcribe" ∨ args.task = "translate") ∧
    (∀ i v, strStarts i "-" = false → strStarts v "-" = false →
      v ≠ "transcribe" → v ≠ "translate" →
      parse_args [i, "--task", v] = .err (invalidChoiceMsg v)) ∧
    (∀ env argv e, env.whisperImportable = true → env.pyVerGE312 = false →
      parse_args argv = .err e →
      (main env argv).exitCode = 2 ∧ (main env argv).writes = []
        ∧ Stage.inputCheck ∉ (main env argv).trace
        ∧ Stage.loadModel ∉ (main env argv).trace
        ∧ Stage.transcribe ∉ (main env argv).trace
        ∧ Stage.writeOutput ∉ (main env argv).trace
        ∧ (main env argv).stderr = [usageText, errLine e]) := by
  refine ⟨parse_args_taskOK, ?_, ?_⟩
  · intro i v hi hv hv1 hv2
    obtain ⟨h1, h2, h3, h4, h5, h6, h7, h8, h9⟩ := plain_token_facts i hi
    have hdash : ¬ (strStarts i "-" = true ∧ i ≠ "-") := by
      intro hc
      rw [hi] at hc
      exact Bool.noConfusion hc.1
    simp [parse_args, scanArgs, scanStep, initScanSt, assignPending,
      h1, h2, h3, h4, h5, h6, h7, h8, h9, hdash, hv, hv1, hv2]
  · intro env argv e hw hv hp
    rw [main_parse_err env argv e hw hv hp]
    refine ⟨rfl, rfl, ?_, ?_, ?_, ?_, rfl⟩ <;> simp

theorem invalid_task_rejected_witness :
    (parse_args ["a.mp3", "--task", "bad"] = .ok
        { input := "a.mp3", model := "small", output := none,
          language := none, task := "bad" } →
      ("bad" : String) = "transcribe" ∨ ("bad" : String) = "translate") ∧
    parse_args ["a.mp3", "--task", "bad"] = .err (invalidChoiceMsg "bad") ∧
    ((main env0 ["a.mp3", "--task", "bad"]).exitCode = 2) :=
  ⟨invalid_task_rejected.1 ["a.mp3", "--task", "bad"] _,
    invalid_task_rejected.2.1 "a.mp3" "bad" (by decide) (by decide)
      (by decide) (by decide),
    (invalid_task_rejected.2.2 env0 ["a.mp3", "--task", "bad"]
      (invalidChoiceMsg "bad") rfl rfl
      (invalid_task_rejected.2.1 "a.mp3" "bad" (by decide) (by decide)
        (by decide) (by decide))).1⟩

/-- C3 counterexample: on a fully successful concrete run the executed
stages are environment check first, then argument parsing — the six-stage
trace is not a prefix of the spec's claimed order (parsing before the
runtime-version check); in the actual trace the environment check strictly
precedes argument parsing. -/
theorem pipeline_order_counterexample :
    ¬ ((main env0 ["/a/in.mp3"]).trace.filter
        (fun s => s ≠ Stage.ffmpegCheck) <+: claimedOrder)
      ∧ (main env0 ["/a/in.mp3"]).trace.indexOf Stage.envCheck
          < (main env0 ["/a/in.mp3"]).trace.indexOf Stage.parseArgs := by
  decide

/-- C3 (amended): stages execute linearly in the order environment
(runtime-version) check, argument parsing, input validation, model
loading, transcription, output writing, post-run ffmpeg check: every
run's trace is a prefix of this order, so no stage runs before its
predecessor in that list and there are no backward transitions or
retries. -/
theorem pipeline_order (env : Env) (argv : List String) :
    (main env argv).trace <+: pipelineOrder := by
  simp only [main]
  repeat' split
  all_goals exact ⟨_, rfl⟩

/-- Inversion of a completed run: if the write stage was reached, every
guard passed, the library calls succeeded, and the whole observable
outcome is the success record. -/
theorem main_success_shape (env : Env) (argv : List String)
    (h : Stage.writeOutput ∈ (main env argv).trace) :
    ∃ args content raw p,
      env.whisperImportable = true ∧ env.pyVerGE312 = false
        ∧ parse_args argv = .ok args
        ∧ env.fs (expandUserResolve env.home env.cwd args.input) = some content
        ∧ env.loadModel args.model = .ok ()
        ∧ env.transcribeFn args.model
            (pathToString (expandUserResolve env.home env.cwd args.input))
            args.task args.language false content = .ok raw
        ∧ resolve_output_path env.home env.cwd
            (expandUserResolve env.home env.cwd args.input)
            args.output args.task = .ok p
        ∧ main env argv
            = ⟨0,
                [loadingMsg args.model, transcribingMsg, doneMsg p,
                  previewHeader, previewOf (pyStrip raw)],
                if env.ffmpegOnPath then [] else [ffmpegWarnMsg],
                [(p, pyStrip raw, "utf-8")],
                fsUpdate env.fs p (pyStrip raw),
                pipelineOrder⟩ := by
  cases hw : env.whisperImportable
  · simp only [main, hw, Bool.false_eq_true, if_false] at h
    simp at h
  · cases hv : env.pyVerGE312
    · cases hp : parse_args argv
      case ok args =>
        cases hfs : env.fs (expandUserResolve env.home env.cwd args.input)
        · simp only [main, hw, hv, hp, hfs] at h
          simp at h
        case some content =>
          cases hload : env.loadModel args.model
          case error m =>
            simp only [main, hw, hv, hp, hfs, hload] at h
            simp at h
          case ok u =>
            cases u
            cases htr : env.transcribeFn args.model
                (pathToString (expandUserResolve env.home env.cwd args.input))
                args.task args.language false content
            case error m =>
              simp only [main, hw, hv, hp, hfs, hload, htr] at h
              simp at h
            case ok raw =>
              cases hres : resolve_output_path env.home env.cwd
                  (expandUserResolve env.home env.cwd args.input)
                  args.output args.task
              case error m =>
                simp only [main, hw, hv, hp, hfs, hload, htr, hres] at h
                simp at h
              case ok p =>
                refine ⟨args, content, raw, p, rfl, rfl, rfl, hfs, hload,
                  htr, hres, ?_⟩
                simp only [main, hw, hv, hp, hfs, hload, htr, hres]
                rfl
      case err e =>
        simp only [main, hw, hv, hp] at h
        simp at h
      case help =>
        simp only [main, hw, hv, hp] at h
        simp at h
    · simp only [main, hw, hv] at h
      simp at h

/-- C7: in every run that reaches the write stage, the text written is the
model's aggregate result with leading and trailing whitespace stripped,
written once as UTF-8 to the single resolved output path, and the success
message printed names exactly that path; the run exits with status 0. -/
theorem output_written_consistently (env : Env) (argv : List String)
    (h : Stage.writeOutput ∈ (main env argv).trace) :
    ∃ args raw p,
      parse_args argv = .ok args
        ∧ (∃ content,
            env.fs (expandUserResolve env.home env.cwd args.input)
                = some content
              ∧ env.transcribeFn args.model
                  (pathToString (expandUserResolve env.home env.cwd args.input))
                  args.task args.language false content = .ok raw)
        ∧ resolve_output_path env.home env.cwd
            (expandUserResolve env.home env.cwd args.input)
            args.output args.task = .ok p
        ∧ (main env argv).writes = [(p, pyStrip raw, "utf-8")]
        ∧ doneMsg p ∈ (main env argv).stdout
        ∧ (main env argv).exitCode = 0 := by
  obtain ⟨args, content, raw, p, _, _, hp, hfs, _, htr, hres, hrun⟩ :=
    main_success_shape env argv h
  refine ⟨args, raw, p, hp, ⟨content, hfs, htr⟩, hres, ?_, ?_, ?_⟩ <;>
    (rw [hrun]; try simp)

theorem output_written_consistently_witness :
    ∃ args raw p,
      parse_args ["/a/in.mp3"] = .ok args
        ∧ (∃ content,
            env0.fs (expandUserResolve env0.home env0.cwd args.input)
                = some content
              ∧ env0.transcribeFn args.model
                  (pathToString (expandUserResolve env0.home env0.cwd args.input))
                  args.task args.language false content = .ok raw)
        ∧ resolve_output_path env0.home env0.cwd
            (expandUserResolve env0.home env0.cwd args.input)
            args.output args.task = .ok p
        ∧ (main env0 ["/a/in.mp3"]).writes = [(p, pyStrip raw, "utf-8")]
        ∧ doneMsg p ∈ (main env0 ["/a/in.mp3"]).stdout
        ∧ (main env0 ["/a/in.mp3"]).exitCode = 0 :=
  output_written_consistently env0 ["/a/in.mp3"] (by decide)

/-- The same environment with the ffmpeg PATH-presence bit replaced. -/
def withFfmpeg (env : Env) (b : Bool) : Env := { env with ffmpegOnPath := b }

/-- C8: the ffmpeg lookup is a post-run soft check: whether ffmpeg is on
PATH never changes the exit code, stdout, writes, filesystem effect or
trace of a run; when ffmpeg is absent exactly one warning is appended to
the error stream, and only in runs that produced output; the check itself
happens exactly in the runs that wrote output, strictly after the write
stage. -/
theorem ffmpeg_soft_check (env : Env) (argv : List String) :
    (main (withFfmpeg env false) argv).exitCode
        = (main (withFfmpeg env true) argv).exitCode
      ∧ (main (withFfmpeg env false) argv).stdout
        = (main (withFfmpeg env true) argv).stdout
      ∧ (main (withFfmpeg env false) argv).writes
        = (main (withFfmpeg env true) argv).writes
      ∧ (main (withFfmpeg env false) argv).trace
        = (main (withFfmpeg env true) argv).trace
      ∧ (∀ q, (main (withFfmpeg env false) argv).fs q
            = (main (withFfmpeg env true) argv).fs q)
      ∧ (Stage.writeOutput ∈ (main (withFfmpeg env false) argv).trace →
          (main (withFfmpeg env false) argv).stderr
              = (main (withFfmpeg env true) argv).stderr ++ [ffmpegWarnMsg]
            ∧ (main (withFfmpeg env true) argv).stderr = [])
      ∧ (Stage.writeOutput ∉ (main (withFfmpeg env false) argv).trace →
          (main (withFfmpeg env false) argv).stderr
            = (main (withFfmpeg env true) argv).stderr)
      ∧ (Stage.ffmpegCheck ∈ (main (withFfmpeg env false) argv).trace
          ↔ Stage.writeOutput ∈ (main (withFfmpeg env false) argv).trace)
      ∧ (Stage.ffmpegCheck ∈ (main (withFfmpeg env false) argv).trace →
          List.indexOf Stage.writeOutput
              (main (withFfmpeg env false) argv).trace
            < List.indexOf Stage.ffmpegCheck
                (main (withFfmpeg env false) argv).trace) := by
  cases hw : env.whisperImportable
  case false =>
    have hb : ∀ b : Bool, main (withFfmpeg env b) argv
        = ⟨1, [], [importErrMsg], [], env.fs, []⟩ := by
      intro b; simp only [main, withFfmpeg, hw]; rfl
    rw [hb false, hb true]
    refine ⟨rfl, rfl, rfl, rfl, fun q => rfl, ?_, fun _ => rfl, ?_, ?_⟩
    · intro hmem; simp at hmem
    · constructor <;> (intro hmem; simp at hmem)
    · intro hmem; simp at hmem
  case true =>
    cases hv : env.pyVerGE312
    case true =>
      have hb : ∀ b : Bool, main (withFfmpeg env b) argv
          = ⟨1, [], [versionErrMsg], [], env.fs, [Stage.envCheck]⟩ := by
        intro b; simp only [main, withFfmpeg, hw, hv]; rfl
      rw [hb false, hb true]
      refine ⟨rfl, rfl, rfl, rfl, fun q => rfl, ?_, fun _ => rfl, ?_, ?_⟩
      · intro hmem; simp at hmem
      · constructor <;> (intro hmem; simp at hmem)
      · intro hmem; simp at hmem
    case false =>
      cases hp : parse_args argv
      case help =>
        have hb : ∀ b : Bool, main (withFfmpeg env b) argv
            = ⟨0, [helpText], [], [], env.fs,
                [Stage.envCheck, Stage.parseArgs]⟩ := by
          intro b; simp only [main, withFfmpeg, hw, hv, hp]; rfl
        rw [hb false, hb true]
        refine ⟨rfl, rfl, rfl, rfl, fun q => rfl, ?_, fun _ => rfl, ?_, ?_⟩
        · intro hmem; simp at hmem
        · constructor <;> (intro hmem; simp at hmem)
        · intro hmem; simp at hmem
      case err e =>
        have hb : ∀ b : Bool, main (withFfmpeg env b) argv
            = ⟨2, [], [usageText, errLine e], [], env.fs,
                [Stage.envCheck, Stage.parseArgs]⟩ := by
          intro b; simp only [main, withFfmpeg, hw, hv, hp]; rfl
        rw [hb false, hb true]
        refine ⟨rfl, rfl, rfl, rfl, fun q => rfl, ?_, fun _ => rfl, ?_, ?_⟩
        · intro hmem; simp at hmem
        · constructor <;> (intro hmem; simp at hmem)
        · intro hmem; simp at hmem
      case ok args =>
        cases hfs : env.fs (expandUserResolve env.home env.cwd args.input)
        case none =>
          have hb : ∀ b : Bool, main (withFfmpeg env b) argv
              = ⟨1, [],
                  [notFoundMsg (expandUserResolve env.home env.cwd args.input)],
                  [], env.fs,
                  [Stage.envCheck, Stage.parseArgs, Stage.inputCheck]⟩ := by
            intro b; simp only [main, withFfmpeg, hw, hv, hp, hfs]; rfl
          rw [hb false, hb true]
          refine ⟨rfl, rfl, rfl, rfl, fun q => rfl, ?_, fun _ => rfl, ?_, ?_⟩
          · intro hmem; simp at hmem
          · constructor <;> (intro hmem; simp at hmem)
          · intro hmem; simp at hmem
        case some content =>
          cases hload : env.loadModel args.model
          case error m =>
            have hb : ∀ b : Bool, main (withFfmpeg env b) argv
                = ⟨1, [loadingMsg args.model], [m], [], env.fs,
                    [Stage.envCheck, Stage.parseArgs, Stage.inputCheck,
                      Stage.loadModel]⟩ := by
              intro b; simp only [main, withFfmpeg, hw, hv, hp, hfs, hload]; rfl
            rw [hb false, hb true]
            refine ⟨rfl, rfl, rfl, rfl, fun q => rfl, ?_, fun _ => rfl,
              ?_, ?_⟩
            · intro hmem; simp at hmem
            · constructor <;> (intro hmem; simp at hmem)
            · intro hmem; simp at hmem
          case ok u =>
            cases u
            cases htr : env.transcribeFn args.model
                (pathToString (expandUserResolve env.home env.cwd args.input))
                args.task args.language false content
            case error m =>
              have hb : ∀ b : Bool, main (withFfmpeg env b) argv
                  = ⟨1, [loadingMsg args.model, transcribingMsg], [m], [],
                      env.fs,
                      [Stage.envCheck, Stage.parseArgs, Stage.inputCheck,
                        Stage.loadModel, Stage.transcribe]⟩ := by
                intro b
                simp only [main, withFfmpeg, hw, hv, hp, hfs, hload, htr]
                rfl
              rw [hb false, hb true]
              refine ⟨rfl, rfl, rfl, rfl, fun q => rfl, ?_, fun _ => rfl,
                ?_, ?_⟩
              · intro hmem; simp at hmem
              · constructor <;> (intro hmem; simp at hmem)
              · intro hmem; simp at hmem
            case ok raw =>
              cases hres : resolve_output_path env.home env.cwd
                  (expandUserResolve env.home env.cwd args.input)
                  args.output args.task
              case error m =>
                have hb : ∀ b : Bool, main (withFfmpeg env b) argv
                    = ⟨1, [loadingMsg args.model, transcribingMsg], [m], [],
                        env.fs,
                        [Stage.envCheck, Stage.parseArgs, Stage.inputCheck,
                          Stage.loadModel, Stage.transcribe]⟩ := by
                  intro b
                  simp only [main, withFfmpeg, hw, hv, hp, hfs, hload, htr,
                    hres]
                  rfl
                rw [hb false, hb true]
                refine ⟨rfl, rfl, rfl, rfl, fun q => rfl, ?_, fun _ => rfl,
                  ?_, ?_⟩
                · intro hmem; simp at hmem
                · constructor <;> (intro hmem; simp at hmem)
                · intro hmem; simp at hmem
              case ok p =>
                have hb : ∀ b : Bool, main (withFfmpeg env b) argv
                    = ⟨0,
                        [loadingMsg args.model, transcribingMsg, doneMsg p,
                          previewHeader, previewOf (pyStrip raw)],
                        if b then [] else [ffmpegWarnMsg],
                        [(p, pyStrip raw, "utf-8")],
                        fsUpdate env.fs p (pyStrip raw), pipelineOrder⟩ := by
                  intro b
                  simp only [main, withFfmpeg, hw, hv, hp, hfs, hload, htr,
                    hres]
                  rfl
                rw [hb false, hb true]
                refine ⟨rfl, rfl, rfl, rfl, fun q => rfl,
                  fun _ => ⟨rfl, rfl⟩, ?_, ?_, ?_⟩
                · intro hmem
                  exact absurd (show Stage.writeOutput ∈ pipelineOrder by
                    decide) hmem
                · constructor <;>
                    (intro _
                     show _ ∈ pipelineOrder
                     decide)
                · intro _
                  show List.indexOf Stage.writeOutput pipelineOrder
                    < List.indexOf Stage.ffmpegCheck pipelineOrder
                  decide

theorem ffmpeg_soft_check_witness :
    (main (withFfmpeg env0 false) ["/a/in.mp3"]).stderr
        = (main (withFfmpeg env0 true) ["/a/in.mp3"]).stderr
          ++ [ffmpegWarnMsg]
      ∧ (main (withFfmpeg env0 false) ["/a/in.mp3"]).exitCode
        = (main (withFfmpeg env0 true) ["/a/in.mp3"]).exitCode :=
  ⟨((ffmpeg_soft_check env0 ["/a/in.mp3"]).2.2.2.2.2.1 (by decide)).1,
    (ffmpeg_soft_check env0 ["/a/in.mp3"]).1⟩

theorem infixOfAux_append (pat pre : List Char) :
    infixOfAux pat (pre ++ pat) = true := by
  induction pre with
  | nil =>
      cases pat with
      | nil => rfl
      | cons c t =>
          simp only [List.nil_append, infixOfAux, Bool.or_eq_true]
          exact Or.inl (List.isPrefixOf_iff_prefix.mpr (List.prefix_refl _))
  | cons c pre ih =>
      simp only [List.cons_append, infixOfAux, Bool.or_eq_true]
      exact Or.inr ih

/-- A run with every guard passing but a missing input file. -/
def envNoFs : Env := { env0 with fs := fun _ => none }

/-- C4 counterexample: for the invocation `transcribe ~/missing.mp3` with
no such file, the program does exit non-zero, but its diagnostic prints the
resolved absolute path (`/home/u/missing.mp3`), which does not contain the
literal input path `~/missing.mp3`. -/
theorem missing_input_literal_counterexample :
    (main envNoFs ["~/missing.mp3"]).exitCode ≠ 0
      ∧ ∀ m, m ∈ (main envNoFs ["~/missing.mp3"]).stderr →
          strContains m "~/missing.mp3" = false := by
  decide

/-- C4 (amended): when the resolved input path does not exist, the run
terminates with exit status 1 before the model-loading stage (and before
transcription), writes nothing, and the single diagnostic line contains
the string form of the resolved input path. -/
theorem missing_input_aborts (env : Env) (argv : List String) (args : Args)
    (hw : env.whisperImportable = true) (hv : env.pyVerGE312 = false)
    (hp : parse_args argv = .ok args)
    (hfs : env.fs (expandUserResolve env.home env.cwd args.input) = none) :
    (main env argv).exitCode = 1
      ∧ (main env argv).stderr
          = [notFoundMsg (expandUserResolve env.home env.cwd args.input)]
      ∧ (∃ m, m ∈ (main env argv).stderr
          ∧ strContains m
              (pathToString (expandUserResolve env.home env.cwd args.input))
              = true)
      ∧ Stage.loadModel ∉ (main env argv).trace
      ∧ Stage.transcribe ∉ (main env argv).trace
      ∧ (main env argv).writes = [] := by
  have hrun : main env argv = ⟨1, [],
      [notFoundMsg (expandUserResolve env.home env.cwd args.input)], [],
      env.fs, [Stage.envCheck, Stage.parseArgs, Stage.inputCheck]⟩ := by
    simp only [main, hw, hv, hp, hfs]; rfl
  rw [hrun]
  refine ⟨rfl, rfl, ⟨notFoundMsg (expandUserResolve env.home env.cwd
    args.input), by simp, ?_⟩, ?_, ?_, rfl⟩
  · have hm : (notFoundMsg (expandUserResolve env.home env.cwd
        args.input)).toList
        = "❌ File not found: ".toList
          ++ (pathToString (expandUserResolve env.home env.cwd
              args.input)).toList := by
      simp [notFoundMsg, toString, toList_append]
    simp only [strContains, hm]
    exact infixOfAux_append _ _
  · intro hmem; simp at hmem
  · intro hmem; simp at hmem

theorem missing_input_aborts_witness :
    (main envNoFs ["~/missing.mp3"]).exitCode = 1
      ∧ (main envNoFs ["~/missing.mp3"]).stderr
          = [notFoundMsg (expandUserResolve envNoFs.home envNoFs.cwd
              "~/missing.mp3")]
      ∧ (∃ m, m ∈ (main envNoFs ["~/missing.mp3"]).stderr
          ∧ strContains m
              (pathToString (expandUserResolve envNoFs.home envNoFs.cwd
                "~/missing.mp3")) = true)
      ∧ Stage.loadModel ∉ (main envNoFs ["~/missing.mp3"]).trace
      ∧ Stage.transcribe ∉ (main envNoFs ["~/missing.mp3"]).trace
      ∧ (main envNoFs ["~/missing.mp3"]).writes = [] :=
  missing_input_aborts envNoFs ["~/missing.mp3"]
    { input := "~/missing.mp3", model := "small", output := none,
      language := none, task := "transcribe" } rfl rfl (by decide) rfl

/-- C9: rerunning with the same arguments against the filesystem left by
the first run — provided the input file is unchanged, which is the
hypothesis `hinput` — repeats the first run observably: same writes (same
single target path, equal text content, so the second run overwrites the
file with equal content), same exit code, same streams, and the resulting
filesystem is pointwise unchanged.  The model library is a deterministic
function of its arguments by construction of `Env`. -/
theorem rerun_idempotent (env : Env) (argv : List String)
    (hinput : ∀ args, parse_args argv = .ok args →
      (main env argv).fs (expandUserResolve env.home env.cwd args.input)
        = env.fs (expandUserResolve env.home env.cwd args.input)) :
    (main { env with fs := (main env argv).fs } argv).writes
        = (main env argv).writes
      ∧ (main { env with fs := (main env argv).fs } argv).exitCode
        = (main env argv).exitCode
      ∧ (main { env with fs := (main env argv).fs } argv).stdout
        = (main env argv).stdout
      ∧ (main { env with fs := (main env argv).fs } argv).stderr
        = (main env argv).stderr
      ∧ ∀ q, (main { env with fs := (main env argv).fs } argv).fs q
          = (main env argv).fs q := by
  rcases Bool.eq_false_or_eq_true env.whisperImportable with hw | hw
  swap
  · have hrun1 : main env argv = ⟨1, [], [importErrMsg], [], env.fs, []⟩ := by
      simp only [main, hw]; rfl
    have h2 : main { env with fs := (main env argv).fs } argv
        = main env argv := by
      rw [hrun1]; exact hrun1
    rw [h2]
    exact ⟨rfl, rfl, rfl, rfl, fun q => rfl⟩
  · rcases Bool.eq_false_or_eq_true env.pyVerGE312 with hv | hv
    · have hrun1 : main env argv
          = ⟨1, [], [versionErrMsg], [], env.fs, [Stage.envCheck]⟩ := by
        simp only [main, hw, hv]; rfl
      have h2 : main { env with fs := (main env argv).fs } argv
          = main env argv := by
        rw [hrun1]; exact hrun1
      rw [h2]
      exact ⟨rfl, rfl, rfl, rfl, fun q => rfl⟩
    · cases hp : parse_args argv
      case help =>
        have hrun1 : main env argv
            = ⟨0, [helpText], [], [], env.fs,
                [Stage.envCheck, Stage.parseArgs]⟩ := by
          simp only [main, hw, hv, hp]; rfl
        have h2 : main { env with fs := (main env argv).fs } argv
            = main env argv := by
          rw [hrun1]; exact hrun1
        rw [h2]
        exact ⟨rfl, rfl, rfl, rfl, fun q => rfl⟩
      case err e =>
        have hrun1 : main env argv
            = ⟨2, [], [usageText, errLine e], [], env.fs,
                [Stage.envCheck, Stage.parseArgs]⟩ := by
          simp only [main, hw, hv, hp]; rfl
        have h2 : main { env with fs := (main env argv).fs } argv
            = main env argv := by
          rw [hrun1]; exact hrun1
        rw [h2]
        exact ⟨rfl, rfl, rfl, rfl, fun q => rfl⟩
      case ok args =>
        cases hfs : env.fs (expandUserResolve env.home env.cwd args.input)
        case none =>
          have hrun1 : main env argv
              = ⟨1, [],
                  [notFoundMsg (expandUserResolve env.home env.cwd
                    args.input)], [], env.fs,
                  [Stage.envCheck, Stage.parseArgs, Stage.inputCheck]⟩ := by
            simp only [main, hw, hv, hp, hfs]; rfl
          have h2 : main { env with fs := (main env argv).fs } argv
              = main env argv := by
            rw [hrun1]; exact hrun1
          rw [h2]
          exact ⟨rfl, rfl, rfl, rfl, fun q => rfl⟩
        case some content =>
          cases hload : env.loadModel args.model
          case error m =>
            have hrun1 : main env argv
                = ⟨1, [loadingMsg args.model], [m], [], env.fs,
                    [Stage.envCheck, Stage.parseArgs, Stage.inputCheck,
                      Stage.loadModel]⟩ := by
              simp only [main, hw, hv, hp, hfs, hload]; rfl
            have h2 : main { env with fs := (main env argv).fs } argv
                = main env argv := by
              rw [hrun1]; exact hrun1
            rw [h2]
            exact ⟨rfl, rfl, rfl, rfl, fun q => rfl⟩
          case ok u =>
            cases u
            cases htr : env.transcribeFn args.model
                (pathToString (expandUserResolve env.home env.cwd args.input))
                args.task args.language false content
            case error m =>
              have hrun1 : main env argv
                  = ⟨1, [loadingMsg args.model, transcribingMsg], [m], [],
                      env.fs,
                      [Stage.envCheck, Stage.parseArgs, Stage.inputCheck,
                        Stage.loadModel, Stage.transcribe]⟩ := by
                simp only [main, hw, hv, hp, hfs, hload, htr]; rfl
              have h2 : main { env with fs := (main env argv).fs } argv
                  = main env argv := by
                rw [hrun1]; exact hrun1
              rw [h2]
              exact ⟨rfl, rfl, rfl, rfl, fun q => rfl⟩
            case ok raw =>
              cases hres : resolve_output_path env.home env.cwd
                  (expandUserResolve env.home env.cwd args.input)
                  args.output args.task
              case error m =>
                have hrun1 : main env argv
                    = ⟨1, [loadingMsg args.model, transcribingMsg], [m], [],
                        env.fs,
                        [Stage.envCheck, Stage.parseArgs, Stage.inputCheck,
                          Stage.loadModel, Stage.transcribe]⟩ := by
                  simp only [main, hw, hv, hp, hfs, hload, htr, hres]; rfl
                have h2 : main { env with fs := (main env argv).fs } argv
                    = main env argv := by
                  rw [hrun1]; exact hrun1
                rw [h2]
                exact ⟨rfl, rfl, rfl, rfl, fun q => rfl⟩
              case ok p =>
                have hrun1 : main env argv
                    = ⟨0,
                        [loadingMsg args.model, transcribingMsg, doneMsg p,
                          previewHeader, previewOf (pyStrip raw)],
                        if env.ffmpegOnPath then [] else [ffmpegWarnMsg],
                        [(p, pyStrip raw, "utf-8")],
                        fsUpdate env.fs p (pyStrip raw),
                        pipelineOrder⟩ := by
                  simp only [main, hw, hv, hp, hfs, hload, htr, hres]; rfl
                have hkeep : fsUpdate env.fs p (pyStrip raw)
                    (expandUserResolve env.home env.cwd args.input)
                    = env.fs (expandUserResolve env.home env.cwd
                        args.input) := by
                  have hi := hinput args hp
                  rw [hrun1] at hi
                  exact hi
                have hfs2 : fsUpdate env.fs p (pyStrip raw)
                    (expandUserResolve env.home env.cwd args.input)
                    = some content := by rw [hkeep]; exact hfs
                have hrun2 : main { env with fs := (main env argv).fs } argv
                    = ⟨0,
                        [loadingMsg args.model, transcribingMsg, doneMsg p,
                          previewHeader, previewOf (pyStrip raw)],
                        if env.ffmpegOnPath then [] else [ffmpegWarnMsg],
                        [(p, pyStrip raw, "utf-8")],
                        fsUpdate (fsUpdate env.fs p (pyStrip raw)) p
                          (pyStrip raw),
                        pipelineOrder⟩ := by
                  rw [hrun1]
                  simp only [main, hw, hv, hp, hfs2, hload, htr, hres]
                  rfl
                rw [hrun2, hrun1]
                refine ⟨rfl, rfl, rfl, rfl, ?_⟩
                intro q
                by_cases hq : q = p <;> simp [fsUpdate, hq]

theorem rerun_idempotent_witness :
    (main { env0 with fs := (main env0 ["/a/in.mp3"]).fs }
        ["/a/in.mp3"]).writes
        = (main env0 ["/a/in.mp3"]).writes
      ∧ (main { env0 with fs := (main env0 ["/a/in.mp3"]).fs }
          ["/a/in.mp3"]).exitCode
        = (main env0 ["/a/in.mp3"]).exitCode
      ∧ (main { env0 with fs := (main env0 ["/a/in.mp3"]).fs }
          ["/a/in.mp3"]).stdout
        = (main env0 ["/a/in.mp3"]).stdout
      ∧ (main { env0 with fs := (main env0 ["/a/in.mp3"]).fs }
          ["/a/in.mp3"]).stderr
        = (main env0 ["/a/in.mp3"]).stderr
      ∧ ∀ q, (main { env0 with fs := (main env0 ["/a/in.mp3"]).fs }
            ["/a/in.mp3"]).fs q
          = (main env0 ["/a/in.mp3"]).fs q :=
  rerun_idempotent env0 ["/a/in.mp3"] (by
    intro args hp
    have h2 : PRes.ok
        ({ input := "/a/in.mp3", model := "small", output := none,
           language := none, task := "transcribe" } : Args)
        = PRes.ok args := hp
    cases PRes.ok.inj h2
    decide)

end Transcribe
